import Mathlib

/-!
Shallow embedding of the snap-server backend (`src/server.py`): the
versioned-project revision store (`SaveProject.on_post`, `get_or_create`)
and the access-resolution logic over the sharing graph (`Project.canRead`
and the membership / ownership / teacher checks guarding each handler).

Conventions of the embedding:
* SQLAlchemy relationship collections are Python lists; they are modelled
  as `List String` of user names (resp. `List Course`), and the Python
  operations `x in xs`, `xs.append`, `xs.remove` become list membership,
  append, and first-occurrence removal (`listRemove`, which returns `none`
  where Python raises `ValueError`).
* `hashlib.sha1` applied to `prevId` then `contents` is abstracted as an
  explicit function parameter `sha1 : String → String → String`; every
  theorem that needs collision-freeness states it as a hypothesis.
* Handlers raise typed exceptions; the embedding returns
  `Except ServerError α`.  A Python exception that no handler catches
  (the bare `ValueError` in `UnShareProject.on_get`, the `AttributeError`
  from the nonexistent `project.teachers` in
  `UnShareProjectWithStudents.on_get`) is modelled by the dedicated
  constructors `UnhandledValueError` / `UnhandledAttributeError`.
-/

/-- Course record (`class Course`): teachers and students are the
`course_teachers` / `course_students` relationship lists. -/
structure Course where
  courseId : String
  name : Option String
  teachers : List String
  students : List String
deriving DecidableEq, Repr

/-- Project record (`class Project`): `headId` is the nullable head
revision id, `owners`/`members` the `project_owners`/`shares`
relationship lists, the two course lists the `teacher_shares` /
`student_shares` relationships, and `public` the nullable Boolean
column. -/
structure Project where
  projId : String
  headId : Option String
  sharedName : Option String
  public : Option Bool
  owners : List String
  members : List String
  course_shared_with_teachers : List Course
  course_shared_with_students : List Course
deriving DecidableEq, Repr

/-- Revision row (`class Revision`): primary key `revId` and the
predecessor link `prevId`. -/
structure Revision where
  revId : String
  prevId : String
deriving DecidableEq, Repr

/-- Typed failures of the server (`ServerException` subclasses), plus two
constructors for Python exceptions that escape every handler. -/
inductive ServerError where
  | NotAuthorized
  | NotPermitted
  | UserLogicError (msg : String)
  | UnhandledValueError
  | UnhandledAttributeError
deriving DecidableEq, Repr

/-- Python `list.remove`: delete the first occurrence of `a`, or `none`
where Python raises `ValueError` because `a` is absent. -/
def listRemove {α : Type} [DecidableEq α] : List α → α → Option (List α)
  | [], _ => none
  | x :: xs, a => if x = a then some xs else (listRemove xs a).map (fun ys => x :: ys)

/-- `Project.canRead` (server.py lines 240-250): sequential membership
tests; the Python method returns `True` on a grant and falls off the end
(returning the falsy `None`) otherwise, modelled as `false`. -/
def Project.canRead (project : Project) (user : String) : Bool :=
  if user ∈ project.members then true
  else if user ∈ project.owners then true
  else if project.course_shared_with_teachers.any
      (fun course => decide (user ∈ course.teachers)) then true
  else if project.course_shared_with_students.any
      (fun course => decide (user ∈ course.students) || decide (user ∈ course.teachers)) then true
  else false

/-- The `prevId = formatHash(0)` root sentinel used by
`SaveProject.on_post`: `format(0, '040x')`, forty zero characters. -/
def formatHash0 : String := "0000000000000000000000000000000000000000"

/-- Predicate of the `filter_by(revId=revId, prevId=prevId)` query inside
`get_or_create` as called from `SaveProject.on_post`. -/
def revisionMatches (revId prevId : String) (r : Revision) : Bool :=
  decide (r.revId = revId) && decide (r.prevId = prevId)

/-- `get_or_create(session, Revision, revId=revId, prevId=prevId)`
(server.py lines 587-598): query the store for an existing row; if found
return it with `created = false`, else add a fresh row and return it with
`created = true`.  The session's Revision table is the `List Revision`. -/
def get_or_create (store : List Revision) (revId prevId : String) :
    List Revision × Revision × Bool :=
  match store.find? (revisionMatches revId prevId) with
  | some r => (store, r, false)
  | none => (store ++ [Revision.mk revId prevId], Revision.mk revId prevId, true)

/-- Durable store state: the Revision table rows and the physically
written revision files (`revision.save(contents)` appends a
`(revId, contents)` pair; the write happens only when `created`). -/
structure StoreState where
  revisions : List Revision
  files : List (String × String)
deriving DecidableEq, Repr

/-- `SaveProject.on_post` (server.py lines 937-961): reject with
`NotAuthorized` unless the user is a project member; otherwise set
`sharedName` when given, take `prevId` from the head (else the zero
sentinel), hash `prevId` then the contents, `get_or_create` the revision,
point the head at it, answer with the computed `revId`, and physically
write the contents only when the row was created. -/
def saveProject (sha1 : String → String → String) (st : StoreState)
    (user : String) (project : Project) (contents : String)
    (sharedName : Option String) :
    Except ServerError (StoreState × Project × String) :=
  if user ∈ project.members then
    let project1 := match sharedName with
      | some n => { project with sharedName := some n }
      | none => project
    let prevId := match project1.headId with
      | some h => h
      | none => formatHash0
    let revId := sha1 prevId contents
    match get_or_create st.revisions revId prevId with
    | (revs, revision, created) =>
      let project2 := { project1 with headId := some revision.revId }
      let files := if created then st.files ++ [(revision.revId, contents)] else st.files
      Except.ok (StoreState.mk revs files, project2, revId)
  else Except.error ServerError.NotAuthorized

/-- `CreateProject.on_get` (server.py lines 678-686):
`Project(projId=projId, owners=[user])` followed by
`proj.members.append(user)`; every other column keeps its NULL/empty
default. -/
def createProject (user : String) (projId : String) : Project :=
  { projId := projId
    headId := none
    sharedName := none
    public := none
    owners := [user]
    members := [user]
    course_shared_with_teachers := []
    course_shared_with_students := [] }

/-- `LoadProject.on_get` (server.py lines 862-872): member check, then the
project is rendered back to the caller. -/
def loadProject (user : String) (project : Project) :
    Except ServerError Project :=
  if user ∈ project.members then Except.ok project
  else Except.error ServerError.NotAuthorized

/-- `ListMembers.on_get` (server.py lines 795-806): member check, then the
member list is rendered. -/
def listMembers (user : String) (project : Project) :
    Except ServerError (List String) :=
  if user ∈ project.members then Except.ok project.members
  else Except.error ServerError.NotAuthorized

/-- `ShareProject.on_get` (server.py lines 964-974): member check, then
`project.members.append(newMember)`. -/
def shareProject (user : String) (project : Project) (newMember : String) :
    Except ServerError Project :=
  if user ∈ project.members then
    Except.ok { project with members := project.members ++ [newMember] }
  else Except.error ServerError.NotAuthorized

/-- `MakePublic.on_get` (server.py lines 875-884): member check, then
`project.public = True`. -/
def makePublic (user : String) (project : Project) :
    Except ServerError Project :=
  if user ∈ project.members then
    Except.ok { project with public := some true }
  else Except.error ServerError.NotAuthorized

/-- `UnMakePublic.on_get` (server.py lines 1067-1076): member check, then
`project.public = False`. -/
def unmakePublic (user : String) (project : Project) :
    Except ServerError Project :=
  if user ∈ project.members then
    Except.ok { project with public := some false }
  else Except.error ServerError.NotAuthorized

/-- `RemoveStudent.on_get` (server.py lines 887-900): teacher check, then
`course.students.remove(student)` with `ValueError` turned into
`UserLogicError`. -/
def removeStudent (caller : String) (course : Course) (student : String) :
    Except ServerError Course :=
  if caller ∈ course.teachers then
    match listRemove course.students student with
    | some ss => Except.ok { course with students := ss }
    | none => Except.error (ServerError.UserLogicError "User is not taking this course.")
  else Except.error ServerError.NotAuthorized

/-- `RemoveTeacher.on_get` (server.py lines 903-918): teacher check, then
the one-teacher floor check (`NotPermitted`), then
`course.teachers.remove(teacher)` with `ValueError` turned into
`UserLogicError`. -/
def removeTeacher (caller : String) (course : Course) (teacher : String) :
    Except ServerError Course :=
  if caller ∈ course.teachers then
    if course.teachers.length = 1 then Except.error ServerError.NotPermitted
    else
      match listRemove course.teachers teacher with
      | some ts => Except.ok { course with teachers := ts }
      | none => Except.error (ServerError.UserLogicError "User is not teaching this course.")
  else Except.error ServerError.NotAuthorized

/-- `UnEnroll.on_get` (server.py lines 1054-1064): no check beyond
authentication; `course.students.remove(user)` with `ValueError` turned
into `UserLogicError`. -/
def unenroll (user : String) (course : Course) : Except ServerError Course :=
  match listRemove course.students user with
  | some ss => Except.ok { course with students := ss }
  | none => Except.error (ServerError.UserLogicError "User is not taking this course.")

/-- `UnShareProject.on_get` (server.py lines 1079-1091): member check,
owners may not be removed (`NotAuthorized`), then a bare
`project.members.remove(toRemove)` with NO `try/except`: an absent member
raises a `ValueError` that no handler catches. -/
def unshareProject (caller : String) (project : Project) (toRemove : String) :
    Except ServerError Project :=
  if caller ∈ project.members then
    if toRemove ∈ project.owners then Except.error ServerError.NotAuthorized
    else
      match listRemove project.members toRemove with
      | some ms => Except.ok { project with members := ms }
      | none => Except.error ServerError.UnhandledValueError
  else Except.error ServerError.NotAuthorized

/-- `UnShareProjectWithStudents.on_get` (server.py lines 1094-1107): the
guard reads `user not in project.members and user not in project.teachers`;
when the caller is not a member the second conjunct dereferences the
nonexistent attribute `Project.teachers`, an uncaught `AttributeError`.
For a member, absence of the course reports `UserLogicError`, else the
course is removed. -/
def unshareProjectWithStudents (caller : String) (project : Project)
    (course : Course) : Except ServerError Project :=
  if caller ∈ project.members then
    if course ∈ project.course_shared_with_students then
      match listRemove project.course_shared_with_students course with
      | some cs => Except.ok { project with course_shared_with_students := cs }
      | none => Except.error ServerError.UnhandledValueError
    else Except.error (ServerError.UserLogicError
      "Project not shared with students in this couse.")
  else Except.error ServerError.UnhandledAttributeError

/-- `UnShareProjectWithTeachers.on_get` (server.py lines 1110-1123):
member check, absence of the course reports `UserLogicError`, else the
course is removed. -/
def unshareProjectWithTeachers (caller : String) (project : Project)
    (course : Course) : Except ServerError Project :=
  if caller ∈ project.members then
    if course ∈ project.course_shared_with_teachers then
      match listRemove project.course_shared_with_teachers course with
      | some cs => Except.ok { project with course_shared_with_teachers := cs }
      | none => Except.error ServerError.UnhandledValueError
    else Except.error (ServerError.UserLogicError
      "Project not shared with teachers in this couse.")
  else Except.error ServerError.NotAuthorized

/-- Modelled from the spec: `canWrite(user, project) -> bool`, "true iff
`user ∈ project.owners ∪ project.members`".  The source has no such
function; `SaveProject.on_post` inlines a members-only check.  This
definition follows the spec words so the two can be compared. -/
def canWriteSpec (project : Project) (user : String) : Bool :=
  decide (user ∈ project.owners) || decide (user ∈ project.members)

/-- Repeated invocation of `get_or_create` with one fixed
`(revId, prevId)` pair, threading the store; yields the per-call
`(revision, created)` observations in order. -/
def iterate_get_or_create (revId prevId : String) :
    Nat → List Revision → List (Revision × Bool)
  | 0, _ => []
  | Nat.succ n, store =>
    match get_or_create store revId prevId with
    | (store2, rev, created) => (rev, created) :: iterate_get_or_create revId prevId n store2

/-! Helper lemmas about the embedded operations. -/

lemma listRemove_eq_none_iff {α : Type} [DecidableEq α] {l : List α} {a : α} :
    listRemove l a = none ↔ a ∉ l := by
  induction l with
  | nil => simp [listRemove]
  | cons x xs ih =>
    by_cases hx : x = a
    · simp [listRemove, hx]
    · rw [listRemove, if_neg hx, Option.map_eq_none', ih]
      constructor
      · intro hni hmem
        rcases List.mem_cons.mp hmem with rfl | hmem2
        · exact hx rfl
        · exact hni hmem2
      · intro hni hmem
        exact hni (List.mem_cons_of_mem x hmem)

lemma listRemove_some_length {α : Type} [DecidableEq α] {l l' : List α} {a : α}
    (h : listRemove l a = some l') : l'.length + 1 = l.length := by
  induction l generalizing l' with
  | nil => simp [listRemove] at h
  | cons x xs ih =>
    by_cases hx : x = a
    · simp [listRemove, hx] at h
      subst h
      rfl
    · simp [listRemove, hx] at h
      obtain ⟨ys, hys, rfl⟩ := h
      simp [ih hys]

lemma listRemove_isSome_of_mem {α : Type} [DecidableEq α] {l : List α} {a : α}
    (h : a ∈ l) : ∃ l', listRemove l a = some l' := by
  rcases hl : listRemove l a with _ | l'
  · exact absurd h (listRemove_eq_none_iff.mp hl)
  · exact ⟨l', rfl⟩

lemma revisionMatches_self (revId prevId : String) :
    revisionMatches revId prevId (Revision.mk revId prevId) = true := by
  simp [revisionMatches]

lemma revisionMatches_eq {revId prevId : String} {r : Revision}
    (h : revisionMatches revId prevId r = true) : r = Revision.mk revId prevId := by
  cases r with
  | mk ri pi =>
    simp [revisionMatches] at h
    simp [h.1, h.2]

lemma get_or_create_of_find_none {store : List Revision} {revId prevId : String}
    (h : store.find? (revisionMatches revId prevId) = none) :
    get_or_create store revId prevId
      = (store ++ [Revision.mk revId prevId], Revision.mk revId prevId, true) := by
  simp [get_or_create, h]

lemma get_or_create_of_find_some {store : List Revision} {revId prevId : String}
    {r : Revision} (h : store.find? (revisionMatches revId prevId) = some r) :
    get_or_create store revId prevId = (store, r, false) := by
  simp [get_or_create, h]

lemma get_or_create_ids (store : List Revision) (revId prevId : String) :
    ((get_or_create store revId prevId).2.1).revId = revId
    ∧ ((get_or_create store revId prevId).2.1).prevId = prevId := by
  rcases h : store.find? (revisionMatches revId prevId) with _ | r
  · simp [get_or_create_of_find_none h]
  · have hm := List.find?_some h
    rw [get_or_create_of_find_some h]
    rw [revisionMatches_eq hm]
    exact ⟨rfl, rfl⟩

lemma find?_append_singleton {l : List Revision} {p : Revision → Bool}
    (h : l.find? p = none) {r : Revision} (hr : p r = true) :
    (l ++ [r]).find? p = some r := by
  induction l with
  | nil => simp [List.find?, hr]
  | cons x xs ih =>
    by_cases hx : p x = true
    · rw [List.find?_cons_of_pos _ hx] at h
      exact absurd h (by simp)
    · have hxs : xs.find? p = none := by
        rw [List.find?_cons_of_neg _ hx] at h
        exact h
      rw [List.cons_append, List.find?_cons_of_neg _ hx]
      exact ih hxs

lemma iterate_get_or_create_of_found {revId prevId : String} {store : List Revision}
    {r : Revision} (h : store.find? (revisionMatches revId prevId) = some r) :
    ∀ m, iterate_get_or_create revId prevId m store = List.replicate m (r, false) := by
  intro m
  induction m with
  | zero => simp [iterate_get_or_create]
  | succ k ih =>
    simp only [iterate_get_or_create, get_or_create_of_find_some h]
    rw [ih]
    simp [List.replicate_succ]

lemma canRead_eq_true_iff (project : Project) (user : String) :
    project.canRead user = true ↔
      user ∈ project.members ∨ user ∈ project.owners
      ∨ (∃ course ∈ project.course_shared_with_teachers, user ∈ course.teachers)
      ∨ (∃ course ∈ project.course_shared_with_students,
          user ∈ course.students ∨ user ∈ course.teachers) := by
  unfold Project.canRead
  split_ifs with h1 h2 h3 h4 <;>
    simp_all [List.any_eq_true]

lemma saveProject_of_not_member (sha1 : String → String → String) (st : StoreState)
    {user : String} {project : Project} (contents : String) (sharedName : Option String)
    (h : user ∉ project.members) :
    saveProject sha1 st user project contents sharedName
      = Except.error ServerError.NotAuthorized := by
  simp [saveProject, h]

lemma saveProject_of_member (sha1 : String → String → String) (st : StoreState)
    {user : String} {project : Project} (contents : String) (sharedName : Option String)
    (h : user ∈ project.members) :
    saveProject sha1 st user project contents sharedName =
      Except.ok
        (StoreState.mk
          (get_or_create st.revisions
            (sha1 (project.headId.getD formatHash0) contents)
            (project.headId.getD formatHash0)).1
          (if (get_or_create st.revisions
                (sha1 (project.headId.getD formatHash0) contents)
                (project.headId.getD formatHash0)).2.2
            then st.files ++
              [((get_or_create st.revisions
                  (sha1 (project.headId.getD formatHash0) contents)
                  (project.headId.getD formatHash0)).2.1.revId, contents)]
            else st.files),
        { project with
            sharedName := match sharedName with
              | some n => some n
              | none => project.sharedName
            headId := some (get_or_create st.revisions
                (sha1 (project.headId.getD formatHash0) contents)
                (project.headId.getD formatHash0)).2.1.revId },
        sha1 (project.headId.getD formatHash0) contents) := by
  unfold saveProject
  rw [if_pos h]
  cases sharedName <;> cases hh : project.headId <;>
    simp only [hh, Option.getD_none, Option.getD_some]

lemma get_or_create_mem (store : List Revision) (revId prevId : String) :
    Revision.mk revId prevId ∈ (get_or_create store revId prevId).1 := by
  rcases h : store.find? (revisionMatches revId prevId) with _ | r
  · simp [get_or_create_of_find_none h]
  · have hm := List.find?_some h
    have hmem := List.mem_of_find?_eq_some h
    rw [get_or_create_of_find_some h]
    rw [revisionMatches_eq hm] at hmem
    exact hmem

/-! Concrete fixtures used by counterexamples and witnesses. -/

/-- Sample hash function standing in for `sha1`: concatenation (injective
on the inputs used by the witnesses). -/
def hashCat : String → String → String := fun p c => p ++ c

/-- Project whose only owner "alice" is not a member. -/
def ownerOnlyProject : Project :=
  { projId := "p3"
    headId := none
    sharedName := none
    public := none
    owners := ["alice"]
    members := []
    course_shared_with_teachers := []
    course_shared_with_students := [] }

/-- Project whose only member "alice" owns nothing. -/
def memberOnlyProject : Project :=
  { projId := "p6"
    headId := none
    sharedName := none
    public := none
    owners := []
    members := ["alice"]
    course_shared_with_teachers := []
    course_shared_with_students := [] }

/-- Course with a single teacher. -/
def soloCourse : Course :=
  { courseId := "c1", name := none, teachers := ["t"], students := [] }

/-- Course with exactly two teachers. -/
def duoCourse : Course :=
  { courseId := "c2", name := none, teachers := ["t", "u"], students := [] }

/-- Course taught by "t", used for course-mediated sharing. -/
def sharedCourse : Course :=
  { courseId := "cs", name := none, teachers := ["t"], students := [] }

/-- Project shared with the teachers of `sharedCourse`; "t" is neither an
owner nor a member. -/
def teacherSharedProject : Project :=
  { projId := "p7"
    headId := none
    sharedName := none
    public := none
    owners := ["o"]
    members := ["m"]
    course_shared_with_teachers := [sharedCourse]
    course_shared_with_students := [] }

/-! Claim theorems. -/

/-- C1: for every user and project, `canRead` is true iff the user is a
member or owner, or some course in `course_shared_with_teachers` has the
user among its teachers, or some course in `course_shared_with_students`
has the user among its students or teachers; otherwise the result is the
falsy no-grant value, modelled `false`. -/
theorem canRead_characterization (project : Project) (user : String) :
    project.canRead user = true ↔
      user ∈ project.members ∨ user ∈ project.owners
      ∨ (∃ course ∈ project.course_shared_with_teachers, user ∈ course.teachers)
      ∨ (∃ course ∈ project.course_shared_with_students,
          user ∈ course.students ∨ user ∈ course.teachers) :=
  canRead_eq_true_iff project user

/-- C3 counterexample: `ownerOnlyProject` has "alice" in `owners` but not
in `members`; the spec's `canWrite` grants her write access, yet
`SaveProject.on_post` (which checks only `project.members`) rejects her
save with `NotAuthorized`.  This refutes the claim that a save by an
owner is never rejected. -/
theorem save_owner_not_member_rejected :
    canWriteSpec ownerOnlyProject "alice" = true
    ∧ saveProject hashCat (StoreState.mk [] []) "alice" ownerOnlyProject "x" none
        = Except.error ServerError.NotAuthorized :=
  ⟨by decide, rfl⟩

/-- C3 amended: save is rejected with `NotAuthorized` exactly when the
user is not in `project.members` (the handler checks membership only, so
an owner outside the member list is rejected; owners created through
`createProject` are also members). -/
theorem saveProject_notAuthorized_iff (sha1 : String → String → String)
    (st : StoreState) (user : String) (project : Project) (contents : String)
    (sharedName : Option String) :
    saveProject sha1 st user project contents sharedName
        = Except.error ServerError.NotAuthorized
      ↔ user ∉ project.members := by
  by_cases h : user ∈ project.members
  · rw [saveProject_of_member sha1 st contents sharedName h]
    simp [h]
  · rw [saveProject_of_not_member sha1 st contents sharedName h]
    simp [h]

/-- C5: for an authorized caller (a teacher of the course), removing a
teacher from a one-teacher course fails with `NotPermitted`; from a
two-teacher course removing a present teacher succeeds and leaves exactly
one; and any successful removal leaves the teacher list non-empty. -/
theorem removeTeacher_floor (caller : String) (course : Course) (teacher : String)
    (hauth : caller ∈ course.teachers) :
    (course.teachers.length = 1 →
      removeTeacher caller course teacher = Except.error ServerError.NotPermitted)
    ∧ (course.teachers.length = 2 → teacher ∈ course.teachers →
        ∃ course2, removeTeacher caller course teacher = Except.ok course2
          ∧ course2.teachers.length = 1)
    ∧ (∀ course2, removeTeacher caller course teacher = Except.ok course2 →
        course2.teachers ≠ []) := by
  refine ⟨?_, ?_, ?_⟩
  · intro h1
    simp [removeTeacher, hauth, h1]
  · intro h2 hmem
    obtain ⟨ts, hts⟩ := listRemove_isSome_of_mem hmem
    have hlen := listRemove_some_length hts
    refine ⟨{ course with teachers := ts }, ?_, ?_⟩
    · simp [removeTeacher, hauth, h2, hts]
    · simp only []
      omega
  · intro course2 hok
    unfold removeTeacher at hok
    rw [if_pos hauth] at hok
    by_cases h1 : course.teachers.length = 1
    · rw [if_pos h1] at hok
      exact absurd hok (by simp)
    · rw [if_neg h1] at hok
      rcases hts : listRemove course.teachers teacher with _ | ts
      · rw [hts] at hok
        exact absurd hok (by simp)
      · rw [hts] at hok
        have hlen := listRemove_some_length hts
        have hpos : course.teachers.length ≠ 0 := by
          intro h0
          rw [List.length_eq_zero] at h0
          rw [h0] at hauth
          exact absurd hauth (List.not_mem_nil caller)
        have hcourse2 : course2 = { course with teachers := ts } := by
          injection hok with h
          exact h.symm
        rw [hcourse2]
        simp only []
        intro hnil
        rw [hnil] at hlen
        simp at hlen
        omega

/-- Witness for C5 at the concrete one- and two-teacher courses. -/
theorem removeTeacher_floor_witness :
    removeTeacher "t" soloCourse "t" = Except.error ServerError.NotPermitted
    ∧ ∃ course2, removeTeacher "t" duoCourse "u" = Except.ok course2
        ∧ course2.teachers.length = 1 :=
  ⟨(removeTeacher_floor "t" soloCourse "t" (by decide)).1 (by decide),
   (removeTeacher_floor "t" duoCourse "u" (by decide)).2.1 (by decide) (by decide)⟩

/-- C6 counterexample: an authorized member asking `unshareProject` to
remove a user who is neither an owner nor a member does NOT get
`UserLogicError`: the bare `project.members.remove(toRemove)` raises a
`ValueError` that no handler catches. -/
theorem unshareProject_absent_member_crashes :
    unshareProject "alice" memberOnlyProject "bob"
      = Except.error ServerError.UnhandledValueError := rfl

/-- C6 amended: `removeStudent`, `removeTeacher` (when more than one
teacher remains), `unenroll`, `unshareProjectWithStudents` and
`unshareProjectWithTeachers` report `UserLogicError` when the entity to
remove is absent; `unshareProject` alone instead raises an unhandled
`ValueError` (and `removeTeacher` on a one-teacher course reports
`NotPermitted` before the absence check). -/
theorem removal_absent_reports_userLogicError
    (caller target : String) (course courseArg : Course) (project : Project) :
    (caller ∈ course.teachers → target ∉ course.students →
      removeStudent caller course target
        = Except.error (ServerError.UserLogicError "User is not taking this course."))
    ∧ (caller ∈ course.teachers → course.teachers.length ≠ 1 →
        target ∉ course.teachers →
      removeTeacher caller course target
        = Except.error (ServerError.UserLogicError "User is not teaching this course."))
    ∧ (target ∉ course.students →
      unenroll target course
        = Except.error (ServerError.UserLogicError "User is not taking this course."))
    ∧ (caller ∈ project.members → courseArg ∉ project.course_shared_with_students →
      unshareProjectWithStudents caller project courseArg
        = Except.error (ServerError.UserLogicError
            "Project not shared with students in this couse."))
    ∧ (caller ∈ project.members → courseArg ∉ project.course_shared_with_teachers →
      unshareProjectWithTeachers caller project courseArg
        = Except.error (ServerError.UserLogicError
            "Project not shared with teachers in this couse."))
    ∧ (caller ∈ project.members → target ∉ project.owners → target ∉ project.members →
      unshareProject caller project target
        = Except.error ServerError.UnhandledValueError) := by
  refine ⟨?_, ?_, ?_, ?_, ?_, ?_⟩
  · intro h1 h2
    simp [removeStudent, h1, listRemove_eq_none_iff.mpr h2]
  · intro h1 h2 h3
    simp [removeTeacher, h1, h2, listRemove_eq_none_iff.mpr h3]
  · intro h1
    simp [unenroll, listRemove_eq_none_iff.mpr h1]
  · intro h1 h2
    simp [unshareProjectWithStudents, h1, h2]
  · intro h1 h2
    simp [unshareProjectWithTeachers, h1, h2]
  · intro h1 h2 h3
    simp [unshareProject, h1, h2, listRemove_eq_none_iff.mpr h3]

/-- Witness for C6 (amended) across the five guarded operations. -/
theorem removal_absent_reports_witness :
    removeStudent "t" soloCourse "x"
      = Except.error (ServerError.UserLogicError "User is not taking this course.")
    ∧ removeTeacher "t" duoCourse "x"
      = Except.error (ServerError.UserLogicError "User is not teaching this course.")
    ∧ unenroll "x" soloCourse
      = Except.error (ServerError.UserLogicError "User is not taking this course.")
    ∧ unshareProjectWithStudents "alice" memberOnlyProject soloCourse
      = Except.error (ServerError.UserLogicError
          "Project not shared with students in this couse.")
    ∧ unshareProjectWithTeachers "alice" memberOnlyProject soloCourse
      = Except.error (ServerError.UserLogicError
          "Project not shared with teachers in this couse.")
    ∧ unshareProject "alice" memberOnlyProject "bob"
      = Except.error ServerError.UnhandledValueError :=
  ⟨(removal_absent_reports_userLogicError "t" "x" soloCourse soloCourse memberOnlyProject).1
      (by decide) (by decide),
   (removal_absent_reports_userLogicError "t" "x" duoCourse soloCourse memberOnlyProject).2.1
      (by decide) (by decide) (by decide),
   (removal_absent_reports_userLogicError "t" "x" soloCourse soloCourse memberOnlyProject).2.2.1
      (by decide),
   (removal_absent_reports_userLogicError "alice" "x" soloCourse soloCourse memberOnlyProject).2.2.2.1
      (by decide) (by decide),
   (removal_absent_reports_userLogicError "alice" "x" soloCourse soloCourse memberOnlyProject).2.2.2.2.1
      (by decide) (by decide),
   (removal_absent_reports_userLogicError "alice" "bob" soloCourse soloCourse memberOnlyProject).2.2.2.2.2
      (by decide) (by decide) (by decide)⟩

/-- C7: a teacher of a course the project is shared-with-teachers-of, who
is neither owner nor member, can read the project but every save attempt
is rejected with `NotAuthorized`. -/
theorem courseShare_reads_but_cannot_write (user : String) (project : Project)
    (course : Course)
    (hc : course ∈ project.course_shared_with_teachers) (ht : user ∈ course.teachers)
    (hno : user ∉ project.owners) (hnm : user ∉ project.members) :
    project.canRead user = true
    ∧ ∀ (sha1 : String → String → String) (st : StoreState) (contents : String)
        (sharedName : Option String),
        saveProject sha1 st user project contents sharedName
          = Except.error ServerError.NotAuthorized := by
  constructor
  · exact (canRead_eq_true_iff project user).mpr
      (Or.inr (Or.inr (Or.inl ⟨course, hc, ht⟩)))
  · intro sha1 st contents sharedName
    exact saveProject_of_not_member sha1 st contents sharedName hnm

/-- Witness for C7 at the concrete shared course and project. -/
theorem courseShare_reads_but_cannot_write_witness :
    teacherSharedProject.canRead "t" = true
    ∧ saveProject hashCat (StoreState.mk [] []) "t" teacherSharedProject "x" none
        = Except.error ServerError.NotAuthorized :=
  ⟨(courseShare_reads_but_cannot_write "t" teacherSharedProject sharedCourse
      (by decide) (by decide) (by decide) (by decide)).1,
   (courseShare_reads_but_cannot_write "t" teacherSharedProject sharedCourse
      (by decide) (by decide) (by decide) (by decide)).2 hashCat
      (StoreState.mk [] []) "x" none⟩

/-- C10: a project created by `createProject` has the creator as its sole
owner and among its members, hence non-empty owners, a passing read check
and a passing membership (write) check, so the creator's saves are never
rejected with `NotAuthorized`. -/
theorem createProject_creator_access (user projId : String) :
    (createProject user projId).owners = [user]
    ∧ user ∈ (createProject user projId).members
    ∧ (createProject user projId).owners ≠ []
    ∧ (createProject user projId).canRead user = true
    ∧ ∀ (sha1 : String → String → String) (st : StoreState) (contents : String)
        (sharedName : Option String),
        saveProject sha1 st user (createProject user projId) contents sharedName
          ≠ Except.error ServerError.NotAuthorized := by
  refine ⟨rfl, ?_, by simp [createProject], ?_, ?_⟩
  · simp [createProject]
  · simp [Project.canRead, createProject]
  · intro sha1 st contents sharedName
    rw [saveProject_of_member sha1 st contents sharedName (by simp [createProject])]
    simp

/-- C2: an authorized save uses the head revision id as predecessor (the
all-zero sentinel when no head exists), answers the hash of that
predecessor together with the payload whether or not a new row was
physically created, records a revision with exactly that id and
predecessor in the store, points the project head at the new revision id,
and sets `sharedName` when one is given. -/
theorem saveProject_success_spec (sha1 : String → String → String) (st : StoreState)
    (user : String) (project : Project) (contents : String)
    (sharedName : Option String) (h : user ∈ project.members) :
    ∃ st2 project2,
      saveProject sha1 st user project contents sharedName
        = Except.ok (st2, project2, sha1 (project.headId.getD formatHash0) contents)
      ∧ project2.headId = some (sha1 (project.headId.getD formatHash0) contents)
      ∧ project2.sharedName = (match sharedName with
          | some n => some n
          | none => project.sharedName)
      ∧ Revision.mk (sha1 (project.headId.getD formatHash0) contents)
          (project.headId.getD formatHash0) ∈ st2.revisions := by
  rw [saveProject_of_member sha1 st contents sharedName h]
  refine ⟨_, _, rfl, ?_, rfl, ?_⟩
  · simp [(get_or_create_ids st.revisions
      (sha1 (project.headId.getD formatHash0) contents)
      (project.headId.getD formatHash0)).1]
  · exact get_or_create_mem st.revisions
      (sha1 (project.headId.getD formatHash0) contents)
      (project.headId.getD formatHash0)

/-- Witness for C2 at a concrete authorized save. -/
theorem saveProject_success_spec_witness :
    ∃ st2 project2,
      saveProject hashCat (StoreState.mk [] []) "alice" (createProject "alice" "p1")
          "v1" (some "nm")
        = Except.ok (st2, project2,
            hashCat ((createProject "alice" "p1").headId.getD formatHash0) "v1")
      ∧ project2.headId
          = some (hashCat ((createProject "alice" "p1").headId.getD formatHash0) "v1")
      ∧ project2.sharedName = (match (some "nm" : Option String) with
          | some n => some n
          | none => (createProject "alice" "p1").sharedName)
      ∧ Revision.mk (hashCat ((createProject "alice" "p1").headId.getD formatHash0) "v1")
          ((createProject "alice" "p1").headId.getD formatHash0) ∈ st2.revisions :=
  saveProject_success_spec hashCat (StoreState.mk [] []) "alice"
    (createProject "alice" "p1") "v1" (some "nm") (by decide)

/-- C4: when no matching revision is present initially, N ≥ 1 sequential
`get_or_create` calls on one `(revId, prevId)` pair yield `created = true`
exactly once — on the first call — and every later call returns the same
revision with `created = false`; since `SaveProject.on_post` writes the
contents only when `created`, no additional physical write occurs. -/
theorem get_or_create_idempotent (revId prevId : String) (store : List Revision)
    (habs : store.find? (revisionMatches revId prevId) = none)
    (n : Nat) (hn : 1 ≤ n) :
    iterate_get_or_create revId prevId n store
      = (Revision.mk revId prevId, true)
        :: List.replicate (n - 1) (Revision.mk revId prevId, false) := by
  cases n with
  | zero => exact absurd hn (by omega)
  | succ m =>
    simp only [iterate_get_or_create, get_or_create_of_find_none habs]
    have hfind : (store ++ [Revision.mk revId prevId]).find?
        (revisionMatches revId prevId) = some (Revision.mk revId prevId) :=
      find?_append_singleton habs (revisionMatches_self revId prevId)
    rw [iterate_get_or_create_of_found hfind m]
    simp

/-- Witness for C4: three calls on an empty store. -/
theorem get_or_create_idempotent_witness :
    iterate_get_or_create "r" "p" 3 []
      = (Revision.mk "r" "p", true)
        :: List.replicate (3 - 1) (Revision.mk "r" "p", false) :=
  get_or_create_idempotent "r" "p" [] rfl 3 (by omega)

/-- C8: from an empty store and a project with no head, an authorized
save makes revision `Hash(root, contents)` the head with a first physical
write; a second save of the identical contents uses that id as
predecessor and creates again — and as long as the hash does not collide
on these inputs, the two revision ids differ. -/
theorem save_chain_position_binds (sha1 : String → String → String)
    (user : String) (project : Project) (contents : String)
    (hm : user ∈ project.members) (hh : project.headId = none)
    (hcol : sha1 (sha1 formatHash0 contents) contents ≠ sha1 formatHash0 contents) :
    ∃ st1 project1 st2 project2,
      saveProject sha1 (StoreState.mk [] []) user project contents none
        = Except.ok (st1, project1, sha1 formatHash0 contents)
      ∧ project1.headId = some (sha1 formatHash0 contents)
      ∧ st1.files.length = 1
      ∧ saveProject sha1 st1 user project1 contents none
        = Except.ok (st2, project2, sha1 (sha1 formatHash0 contents) contents)
      ∧ project2.headId = some (sha1 (sha1 formatHash0 contents) contents)
      ∧ st2.files.length = 2
      ∧ sha1 (sha1 formatHash0 contents) contents ≠ sha1 formatHash0 contents := by
  have hne : sha1 formatHash0 contents ≠ sha1 (sha1 formatHash0 contents) contents :=
    fun hEq => hcol hEq.symm
  refine ⟨StoreState.mk [Revision.mk (sha1 formatHash0 contents) formatHash0]
        [(sha1 formatHash0 contents, contents)],
    { project with headId := some (sha1 formatHash0 contents) },
    StoreState.mk
        [Revision.mk (sha1 formatHash0 contents) formatHash0,
         Revision.mk (sha1 (sha1 formatHash0 contents) contents)
           (sha1 formatHash0 contents)]
        [(sha1 formatHash0 contents, contents),
         (sha1 (sha1 formatHash0 contents) contents, contents)],
    { project with headId := some (sha1 (sha1 formatHash0 contents) contents) },
    ?_, rfl, rfl, ?_, rfl, rfl, hcol⟩
  · rw [saveProject_of_member sha1 (StoreState.mk [] []) contents none hm, hh]
    simp [get_or_create, List.find?]
  · rw [@saveProject_of_member sha1
      (StoreState.mk [Revision.mk (sha1 formatHash0 contents) formatHash0]
        [(sha1 formatHash0 contents, contents)]) user
      { project with headId := some (sha1 formatHash0 contents) } contents none hm]
    simp [get_or_create, List.find?, revisionMatches, hne]

/-- Witness for C8: concatenation hash, creator-owned project, payload
"v1". -/
theorem save_chain_position_binds_witness :
    ∃ st1 project1 st2 project2,
      saveProject hashCat (StoreState.mk [] []) "alice" (createProject "alice" "p1") "v1" none
        = Except.ok (st1, project1, hashCat formatHash0 "v1")
      ∧ project1.headId = some (hashCat formatHash0 "v1")
      ∧ st1.files.length = 1
      ∧ saveProject hashCat st1 "alice" project1 "v1" none
        = Except.ok (st2, project2, hashCat (hashCat formatHash0 "v1") "v1")
      ∧ project2.headId = some (hashCat (hashCat formatHash0 "v1") "v1")
      ∧ st2.files.length = 2
      ∧ hashCat (hashCat formatHash0 "v1") "v1" ≠ hashCat formatHash0 "v1" :=
  save_chain_position_binds hashCat "alice" (createProject "alice" "p1") "v1"
    (by decide) rfl (by decide)

/-- C9: the `public` flag is inert for access control — `canRead` and
every modelled project operation behave identically on two projects that
differ only in `public` (success/failure agrees and the result differs
only in carrying the modified flag along), and `makePublic` /
`unmakePublic` change nothing but the `public` field. -/
theorem public_flag_inert (project : Project) (b : Option Bool)
    (user newMember toRemove : String) (course : Course)
    (sha1 : String → String → String) (st : StoreState)
    (contents : String) (sharedName : Option String) :
    Project.canRead { project with public := b } user = Project.canRead project user
    ∧ saveProject sha1 st user { project with public := b } contents sharedName
        = (saveProject sha1 st user project contents sharedName).map
            (fun r => (r.1, { r.2.1 with public := b }, r.2.2))
    ∧ loadProject user { project with public := b }
        = (loadProject user project).map (fun p => { p with public := b })
    ∧ listMembers user { project with public := b } = listMembers user project
    ∧ shareProject user { project with public := b } newMember
        = (shareProject user project newMember).map (fun p => { p with public := b })
    ∧ unshareProject user { project with public := b } toRemove
        = (unshareProject user project toRemove).map (fun p => { p with public := b })
    ∧ unshareProjectWithStudents user { project with public := b } course
        = (unshareProjectWithStudents user project course).map
            (fun p => { p with public := b })
    ∧ unshareProjectWithTeachers user { project with public := b } course
        = (unshareProjectWithTeachers user project course).map
            (fun p => { p with public := b })
    ∧ makePublic user { project with public := b } = makePublic user project
    ∧ unmakePublic user { project with public := b } = unmakePublic user project
    ∧ (makePublic user project).map (fun q => { q with public := project.public })
        = (makePublic user project).map (fun _ => project)
    ∧ (unmakePublic user project).map (fun q => { q with public := project.public })
        = (unmakePublic user project).map (fun _ => project) := by
  refine ⟨rfl, ?_, ?_, rfl, ?_, ?_, ?_, ?_, ?_, ?_, ?_, ?_⟩
  · by_cases h : user ∈ project.members
    · rw [@saveProject_of_member sha1 st user { project with public := b }
          contents sharedName h,
        saveProject_of_member sha1 st contents sharedName h]
      rfl
    · rw [@saveProject_of_not_member sha1 st user { project with public := b }
          contents sharedName h,
        saveProject_of_not_member sha1 st contents sharedName h]
      rfl
  · by_cases h : user ∈ project.members <;> simp [loadProject, h, Except.map]
  · by_cases h : user ∈ project.members <;> simp [shareProject, h, Except.map]
  · by_cases h : user ∈ project.members
    · by_cases ho : toRemove ∈ project.owners
      · simp [unshareProject, h, ho, Except.map]
      · rcases hr : listRemove project.members toRemove with _ | ms <;>
          simp [unshareProject, h, ho, hr, Except.map]
    · simp [unshareProject, h, Except.map]
  · by_cases h : user ∈ project.members
    · by_cases hc : course ∈ project.course_shared_with_students
      · rcases hr : listRemove project.course_shared_with_students course with _ | cs <;>
          simp [unshareProjectWithStudents, h, hc, hr, Except.map]
      · simp [unshareProjectWithStudents, h, hc, Except.map]
    · simp [unshareProjectWithStudents, h, Except.map]
  · by_cases h : user ∈ project.members
    · by_cases hc : course ∈ project.course_shared_with_teachers
      · rcases hr : listRemove project.course_shared_with_teachers course with _ | cs <;>
          simp [unshareProjectWithTeachers, h, hc, hr, Except.map]
      · simp [unshareProjectWithTeachers, h, hc, Except.map]
    · simp [unshareProjectWithTeachers, h, Except.map]
  · by_cases h : user ∈ project.members <;> simp [makePublic, h, Except.map]
  · by_cases h : user ∈ project.members <;> simp [unmakePublic, h, Except.map]
  · by_cases h : user ∈ project.members <;> simp [makePublic, h, Except.map]
  · by_cases h : user ∈ project.members <;> simp [unmakePublic, h, Except.map]

/-- Witness for C1 at a concrete project and user. -/
theorem canRead_characterization_witness :
    teacherSharedProject.canRead "t" = true ↔
      "t" ∈ teacherSharedProject.members ∨ "t" ∈ teacherSharedProject.owners
      ∨ (∃ course ∈ teacherSharedProject.course_shared_with_teachers,
          "t" ∈ course.teachers)
      ∨ (∃ course ∈ teacherSharedProject.course_shared_with_students,
          "t" ∈ course.students ∨ "t" ∈ course.teachers) :=
  canRead_characterization teacherSharedProject "t"

/-- Witness for the amended C3 at a concrete non-member. -/
theorem saveProject_notAuthorized_iff_witness :
    saveProject hashCat (StoreState.mk [] []) "bob" memberOnlyProject "x" none
        = Except.error ServerError.NotAuthorized
      ↔ "bob" ∉ memberOnlyProject.members :=
  saveProject_notAuthorized_iff hashCat (StoreState.mk [] []) "bob"
    memberOnlyProject "x" none

/-- Witness for C9 at a concrete project, flag value and user. -/
theorem public_flag_inert_witness :
    Project.canRead { memberOnlyProject with public := some true } "alice"
      = Project.canRead memberOnlyProject "alice" :=
  (public_flag_inert memberOnlyProject (some true) "alice" "bob" "carol"
    soloCourse hashCat (StoreState.mk [] []) "x" none).1

/-- Witness for C10 at a concrete creator. -/
theorem createProject_creator_access_witness :
    (createProject "alice" "p9").owners = ["alice"]
    ∧ (createProject "alice" "p9").canRead "alice" = true :=
  ⟨(createProject_creator_access "alice" "p9").1,
   (createProject_creator_access "alice" "p9").2.2.2.1⟩
